import Mathlib

/-!
Shallow embedding of the concurrent test-and-report harness of
`src/win/gpu_burn-drv.cpp` (gpu-burn, Windows port), together with proofs
about the monitor aggregation loop (`listenClients`), the worker-side error
accumulator (`GPU_Test::getErrors`), buffer initialization
(`GPU_Test::initBuffers`), the memory-argument decoder (`decodeUSEMEM`),
the shared `g_running` cancellation flag, and the shutdown sequence.

Machine `int`/`ssize_t`/`long long` values are modelled as `ℤ`, sizes as
`ℕ`, and the `double`/`float` time and throughput quantities as `ℚ`
(exact arithmetic in place of IEEE rounding, which is below the
resolution of every property treated here).
-/

namespace GpuBurn

/-- `MATRIX_SIZE` (source line 62): matrices are `MATRIX_SIZE × MATRIX_SIZE`. -/
def MATRIX_SIZE : ℕ := 8192

/-- `OPS_PER_MUL` (source line 69): operations attributed to one multiplication. -/
def OPS_PER_MUL : ℕ := 1100048498688

/-- `ENOMEDIUM` (source line 51): exit code used when all workers are dead. -/
def ENOMEDIUM : ℕ := 123

/-- Per-device monitor-side state: one slot of the parallel vectors
`clientTemp`, `clientErrors`, `clientCalcs`, `clientUpdateTime`,
`clientGflops`, `clientFaulty`, `clientFirstUpdate` declared in
`listenClients` (source lines 553-559). -/
structure ClientState where
  clientTemp : ℤ
  clientErrors : ℤ
  clientCalcs : ℤ
  clientUpdateTime : ℚ
  clientGflops : ℚ
  clientFaulty : Bool
  clientFirstUpdate : Bool
  deriving DecidableEq, Repr

/-- Initial slot contents pushed for each client (source lines 563-573);
`t0` is the `GetSystemTimeAsFileTime` value taken at setup. -/
def initClientState (t0 : ℚ) : ClientState :=
  { clientTemp := 0, clientErrors := 0, clientCalcs := 0, clientUpdateTime := t0,
    clientGflops := 0, clientFaulty := false, clientFirstUpdate := true }

/-- One `(iterations, errors)` pair read off a worker pipe; the sentinel is
`processed = -1` (the worker writes `(-1, -1)`). -/
structure ReportMessage where
  processed : ℤ
  errors : ℤ
  deriving DecidableEq, Repr

/-- The body applied to client `i` once both ints of a message have been read
(source lines 601-630): `clientErrors += errors` first, then either the
sentinel branch (`clientCalcs = -1`) or the throughput-and-count branch.
`t` is the `GetSystemTimeAsFileTime` value `thisTimeSpec` taken for this
message; the `(unsigned long long)processed` cast in the Gflops expression is
value-preserving for the nonnegative counts taken in that branch's use here. -/
def applyReport (s : ClientState) (m : ReportMessage) (t : ℚ) : ClientState :=
  let s1 : ClientState := { s with clientErrors := s.clientErrors + m.errors }
  if m.processed = -1 then
    { s1 with clientCalcs := -1 }
  else
    let delta : ℚ := t - s.clientUpdateTime
    let s2 : ClientState := { s1 with clientUpdateTime := t }
    let s3 : ClientState :=
      if 0 < delta ∧ s.clientFirstUpdate = false then
        { s2 with
          clientGflops := (m.processed : ℚ) * (OPS_PER_MUL : ℚ) / delta / 1000 / 1000 / 1000 }
      else
        { s2 with clientGflops := 0, clientFirstUpdate := false }
    { s3 with clientCalcs := s3.clientCalcs + m.processed }

/-- Fold a sequence of timestamped messages into one client slot. -/
def applySeq (s : ClientState) : List (ReportMessage × ℚ) → ClientState
  | [] => s
  | (m, t) :: rest => applySeq (applyReport s m t) rest

/-- A sentinel message (`processed = -1`) overwrites `clientCalcs` with the
dead marker and still folds its `errors` field into `clientErrors`
(the `clientErrors.at(i) += errors` on source line 601 runs before the
sentinel test on line 602). -/
theorem applyReport_sentinel (s : ClientState) (m : ReportMessage) (t : ℚ)
    (hm : m.processed = -1) :
    applyReport s m t
      = { s with clientErrors := s.clientErrors + m.errors, clientCalcs := -1 } := by
  simp [applyReport, hm]

/-- A non-sentinel message adds its `processed` field to `clientCalcs`
(source line 629), in both branches of the Gflops conditional. -/
theorem applyReport_clientCalcs (s : ClientState) (m : ReportMessage) (t : ℚ)
    (hm : m.processed ≠ -1) :
    (applyReport s m t).clientCalcs = s.clientCalcs + m.processed := by
  simp only [applyReport]
  rw [if_neg hm]
  split <;> rfl

/-- `applyReport` never touches `clientFaulty`. -/
theorem applyReport_clientFaulty (s : ClientState) (m : ReportMessage) (t : ℚ) :
    (applyReport s m t).clientFaulty = s.clientFaulty := by
  simp only [applyReport]
  split
  · rfl
  · split <;> rfl

/-- Folding a sentinel-free message sequence accumulates the sum of the
`processed` fields into `clientCalcs`. -/
theorem applySeq_clientCalcs (s : ClientState) (msgs : List (ReportMessage × ℚ))
    (hns : ∀ p ∈ msgs, (p : ReportMessage × ℚ).1.processed ≠ -1) :
    (applySeq s msgs).clientCalcs
      = s.clientCalcs + (msgs.map fun p => p.1.processed).sum := by
  induction msgs generalizing s with
  | nil => simp [applySeq]
  | cons p rest ih =>
      obtain ⟨m, t⟩ := p
      have hm : m.processed ≠ -1 := hns (m, t) (List.mem_cons_self _ _)
      have hrest : ∀ q ∈ rest, (q : ReportMessage × ℚ).1.processed ≠ -1 :=
        fun q hq => hns q (List.mem_cons_of_mem _ hq)
      simp only [applySeq]
      rw [ih _ hrest, applyReport_clientCalcs s m t hm]
      simp [add_assoc]

/-- C1, counterexample: applying the sentinel `(-1, -1)` to a fresh
`WorkerState` changes the cumulative error counter from `0` to `-1`, so the
sentinel's `-1` IS folded into `cumulativeErrors`, contrary to the claim
that a sentinel marks the worker dead without altering the counters. -/
theorem c1_counterexample :
    (applyReport (initClientState 0) ⟨-1, -1⟩ 1).clientErrors = -1 ∧
    (initClientState 0).clientErrors = 0 ∧
    (applyReport (initClientState 0) ⟨-1, -1⟩ 1).clientErrors
      ≠ (initClientState 0).clientErrors := by
  refine ⟨?_, ?_, ?_⟩ <;> simp [applyReport, initClientState]

/-- C1 (amended): for a sentinel-free sequence of ReportMessages applied to a
fresh WorkerState, `cumulativeIterations` (`clientCalcs`) equals the sum of
the `iterationsSinceLast` values; a sentinel message immediately overwrites
`clientCalcs` with the dead marker `-1` (the not-alive encoding) and adds its
`errorsSinceLast` field (`-1` for the worker's `(-1,-1)` pair) to
`cumulativeErrors` (`clientErrors`), because the error accumulation runs
before the sentinel test. -/
theorem c1_sum_and_sentinel (t0 : ℚ) (msgs : List (ReportMessage × ℚ))
    (hns : ∀ p ∈ msgs, (p : ReportMessage × ℚ).1.processed ≠ -1)
    (s : ClientState) (m : ReportMessage) (t : ℚ) (hm : m.processed = -1) :
    (applySeq (initClientState t0) msgs).clientCalcs
      = (msgs.map fun p => p.1.processed).sum ∧
    applyReport s m t
      = { s with clientErrors := s.clientErrors + m.errors, clientCalcs := -1 } := by
  constructor
  · have h := applySeq_clientCalcs (initClientState t0) msgs hns
    simpa [initClientState] using h
  · exact applyReport_sentinel s m t hm

/-- Witness for `c1_sum_and_sentinel` at a concrete sequence and sentinel. -/
theorem c1_sum_and_sentinel_witness :
    (applySeq (initClientState 0) [(⟨3, 0⟩, 1), (⟨4, 2⟩, 2)]).clientCalcs
      = ([(⟨3, 0⟩, (1 : ℚ)), (⟨4, 2⟩, 2)].map
          fun p => (p : ReportMessage × ℚ).1.processed).sum ∧
    applyReport (initClientState 0) ⟨-1, -1⟩ 5
      = { initClientState 0 with
            clientErrors := (initClientState 0).clientErrors + (-1),
            clientCalcs := -1 } :=
  c1_sum_and_sentinel 0 [(⟨3, 0⟩, 1), (⟨4, 2⟩, 2)] (by decide)
    (initClientState 0) ⟨-1, -1⟩ 5 rfl

/-- C5: for a non-sentinel report observed at time `t` against previous
timestamp `t0 = clientUpdateTime`: the stored timestamp becomes `t`
unconditionally; when this is not the first report and `t - t0 > 0` the
stored throughput is `processed * OPS_PER_MUL / (t - t0)` expressed in
Gflop/s (the `/1000/1000/1000` rendering of the per-second value);
otherwise it is 0, and in particular the very first report always yields 0. -/
theorem c5_throughput (s : ClientState) (m : ReportMessage) (t : ℚ)
    (hm : m.processed ≠ -1) :
    (applyReport s m t).clientUpdateTime = t ∧
    ((0 < t - s.clientUpdateTime ∧ s.clientFirstUpdate = false) →
      (applyReport s m t).clientGflops
        = (m.processed : ℚ) * (OPS_PER_MUL : ℚ) / (t - s.clientUpdateTime)
            / 1000 / 1000 / 1000) ∧
    (¬ (0 < t - s.clientUpdateTime ∧ s.clientFirstUpdate = false) →
      (applyReport s m t).clientGflops = 0) ∧
    (s.clientFirstUpdate = true → (applyReport s m t).clientGflops = 0) := by
  refine ⟨?_, ?_, ?_, ?_⟩
  · simp only [applyReport]
    rw [if_neg hm]
    split <;> rfl
  · intro h
    simp only [applyReport]
    rw [if_neg hm, if_pos h]
  · intro h
    simp only [applyReport]
    rw [if_neg hm, if_neg h]
  · intro h
    simp only [applyReport]
    rw [if_neg hm, if_neg (by simp [h])]

/-- Witness for `c5_throughput`: a second report of `n = 1000` iterations
arriving 2 time-units after the prior one, and a first report. -/
theorem c5_throughput_witness :
    (applyReport ⟨0, 0, 0, 0, 0, false, false⟩ ⟨1000, 0⟩ 2).clientUpdateTime = 2 ∧
    (applyReport ⟨0, 0, 0, 0, 0, false, false⟩ ⟨1000, 0⟩ 2).clientGflops
      = (1000 : ℚ) * (OPS_PER_MUL : ℚ) / (2 - 0) / 1000 / 1000 / 1000 ∧
    (applyReport ⟨0, 0, 0, 0, 0, false, true⟩ ⟨1000, 0⟩ 2).clientGflops = 0 := by
  refine ⟨(c5_throughput _ _ _ (by decide)).1,
    ((c5_throughput _ _ _ (by decide)).2.1 ⟨by simp, rfl⟩).trans (by simp),
    (c5_throughput _ _ _ (by decide)).2.2.2 rfl⟩

/-- What one pass of the poll loop finds on one client pipe: no complete
message pair available, a complete `(processed, errors)` pair, or
`PeekNamedPipe` failing with `ERROR_BROKEN_PIPE` (source lines 587-649). -/
inductive ClientInput
  | noData
  | report (m : ReportMessage)
  | brokenPipe
  deriving DecidableEq, Repr

/-- Effect of one client's poll slot in one pass: a full pair runs
`applyReport` and raises `childReport`; a broken pipe sets the dead marker
`clientCalcs = -1` (source lines 643-648) without raising `childReport`. -/
def applyClientInput (c : ClientState) (inp : ClientInput) (t : ℚ) :
    ClientState × Bool :=
  match inp with
  | .noData => (c, false)
  | .report m => (applyReport c m t, true)
  | .brokenPipe => ({ c with clientCalcs := -1 }, false)

/-- The per-pass loop over all client pipes (source lines 587-650); the
returned Bool is whether any pass consumed a message (the `childReport`
assignments of line 631). A missing input entry means no data. -/
def applyInputs (cs : List ClientState) (ins : List ClientInput) (t : ℚ) :
    List ClientState × Bool :=
  match cs, ins with
  | [], _ => ([], false)
  | c :: cs', [] =>
      let rest := applyInputs cs' [] t
      (c :: rest.1, rest.2)
  | c :: cs', inp :: ins' =>
      let this := applyClientInput c inp t
      let rest := applyInputs cs' ins' t
      (this.1 :: rest.1, this.2 || rest.2)

/-- The sticky-fault scan run on every printing pass
(source lines 692-694): any client with a nonzero windowed error count is
marked faulty. -/
def faultyScan (cs : List ClientState) : List ClientState :=
  cs.map fun c => if c.clientErrors ≠ 0 then { c with clientFaulty := true } else c

/-- The windowed error reset run when a 10%-boundary summary fires
(source lines 705-706). -/
def resetErrors (cs : List ClientState) : List ClientState :=
  cs.map fun c => { c with clientErrors := 0 }

/-- `startTime`/`runTime` of `listenClients` (`time_t` seconds). -/
structure MonitorConfig where
  startTime : ℤ
  runTime : ℤ
  deriving DecidableEq, Repr

/-- Monitor loop state across passes: the client slots, the (never reset)
`childReport` flag declared before the loop (source line 576), and the
`nextReport` threshold (source line 575). -/
structure MonitorState where
  clients : List ClientState
  childReport : Bool
  nextReport : ℚ
  deriving DecidableEq, Repr

/-- Initial monitor loop state for `n` clients. -/
def initMonitorState (n : ℕ) (t0 : ℚ) : MonitorState :=
  { clients := List.replicate n (initClientState t0), childReport := false,
    nextReport := 10 }

/-- How a pass ends: `deadlineBreak` for the `break` on line 584,
`abortAllDead code` for the `exit(ENOMEDIUM)` on line 717, `keepGoing` for
falling through to the `Sleep(50)`. -/
inductive PassResult
  | deadlineBreak
  | abortAllDead (code : ℕ)
  | keepGoing
  deriving DecidableEq, Repr

structure PassOutput where
  state : MonitorState
  printed : Bool
  result : PassResult
  deriving DecidableEq, Repr

/-- The render block of a pass (source lines 661-708): when `shouldPrint`
holds, the progress line is emitted, the sticky-fault scan runs, and, when
elapsed time has crossed `nextReport`, the fuller summary fires and the
windowed error counters reset. Returns the updated slots and `nextReport`. -/
def renderStep (shouldPrint : Bool) (nextReport elapsed : ℚ)
    (cs : List ClientState) : List ClientState × ℚ :=
  if shouldPrint then
    let scanned := faultyScan cs
    if nextReport < elapsed then (resetErrors scanned, elapsed + 10)
    else (scanned, nextReport)
  else (cs, nextReport)

/-- One pass of the monitor poll loop (source lines 581-722): deadline check,
message consumption, conditional progress render with sticky-fault scan and
10%-boundary window reset, then the all-clients-dead abort check.
`thisTime` is the `time(0)` value, `tmsg` the `GetSystemTimeAsFileTime`
value used for the messages of this pass. Temperature handling (lines
652-658) touches only `clientTemp` and is omitted. -/
def monitorPass (cfg : MonitorConfig) (s : MonitorState) (thisTime : ℤ)
    (tmsg : ℚ) (ins : List ClientInput) : PassOutput :=
  if cfg.startTime + cfg.runTime < thisTime then
    { state := s, printed := false, result := .deadlineBreak }
  else
    let polled := applyInputs s.clients ins tmsg
    let childReport := s.childReport || polled.2
    let shouldPrint := childReport
    let elapsed : ℚ :=
      min (((thisTime - cfg.startTime : ℤ) : ℚ) / (cfg.runTime : ℚ) * 100) 100
    let rendered := renderStep shouldPrint s.nextReport elapsed polled.1
    let s' : MonitorState :=
      { clients := rendered.1, childReport := childReport, nextReport := rendered.2 }
    if rendered.1.all fun c => c.clientCalcs = -1 then
      { state := s', printed := shouldPrint, result := .abortAllDead ENOMEDIUM }
    else
      { state := s', printed := shouldPrint, result := .keepGoing }

/-- Parameters of one pass: its `time(0)` reading, its message timestamp, and
what each pipe yielded. -/
structure PassParams where
  thisTime : ℤ
  tmsg : ℚ
  ins : List ClientInput
  deriving Repr

/-- Iterated monitor passes (state evolution only). -/
def runPasses (cfg : MonitorConfig) (s : MonitorState) : List PassParams → MonitorState
  | [] => s
  | p :: ps => runPasses cfg (monitorPass cfg s p.thisTime p.tmsg p.ins).state ps

/-- The terminal per-device verdict (source lines 753-755): `FAULTY` exactly
when the sticky flag is set, independent of liveness. -/
def finalSummary (s : MonitorState) : List String :=
  s.clients.map fun c => if c.clientFaulty then "FAULTY" else "OK"

/-- A dead slot stays dead under any input that is not a live report. -/
theorem applyClientInput_dead (c : ClientState) (inp : ClientInput) (t : ℚ)
    (hc : c.clientCalcs = -1)
    (hinp : ∀ m, inp = ClientInput.report m → m.processed = -1) :
    (applyClientInput c inp t).1.clientCalcs = -1 := by
  cases inp with
  | noData => simpa [applyClientInput] using hc
  | report m =>
      have hm := hinp m rfl
      simp [applyClientInput, applyReport_sentinel c m t hm]
  | brokenPipe => simp [applyClientInput]

/-- If every slot is dead and no input is a live report, every slot is dead
after the poll loop. -/
theorem applyInputs_allDead (cs : List ClientState) (ins : List ClientInput)
    (t : ℚ) (hcs : ∀ c ∈ cs, c.clientCalcs = -1)
    (hins : ∀ i ∈ ins, ∀ m, i = ClientInput.report m → m.processed = -1) :
    ∀ c ∈ (applyInputs cs ins t).1, c.clientCalcs = -1 := by
  induction cs generalizing ins with
  | nil => intro c hc; simp [applyInputs] at hc
  | cons c0 cs' ih =>
      cases ins with
      | nil =>
          intro c hc
          simp only [applyInputs] at hc
          rcases List.mem_cons.mp hc with h | h
          · exact h ▸ hcs c0 (List.mem_cons_self _ _)
          · exact ih [] (fun x hx => hcs x (List.mem_cons_of_mem _ hx))
              (fun j hj => absurd hj (List.not_mem_nil j)) c h
      | cons i0 ins' =>
          intro c hc
          simp only [applyInputs] at hc
          rcases List.mem_cons.mp hc with h | h
          · subst h
            exact applyClientInput_dead c0 i0 t (hcs c0 (List.mem_cons_self _ _))
              (fun m hm => hins i0 (List.mem_cons_self _ _) m hm)
          · exact ih ins' (fun x hx => hcs x (List.mem_cons_of_mem _ hx))
              (fun j hj m hm => hins j (List.mem_cons_of_mem _ hj) m hm) c h

/-- The sticky-fault scan does not change `clientCalcs`. -/
theorem faultyScan_allDead (cs : List ClientState)
    (h : ∀ c ∈ cs, c.clientCalcs = -1) :
    ∀ c ∈ faultyScan cs, c.clientCalcs = -1 := by
  intro c hc
  simp only [faultyScan, List.mem_map] at hc
  obtain ⟨c0, hc0, rfl⟩ := hc
  split <;> simpa using h c0 hc0

/-- The windowed error reset does not change `clientCalcs`. -/
theorem resetErrors_allDead (cs : List ClientState)
    (h : ∀ c ∈ cs, c.clientCalcs = -1) :
    ∀ c ∈ resetErrors cs, c.clientCalcs = -1 := by
  intro c hc
  simp only [resetErrors, List.mem_map] at hc
  obtain ⟨c0, hc0, rfl⟩ := hc
  simpa using h c0 hc0

/-- The render block does not change `clientCalcs`. -/
theorem renderStep_allDead (b : Bool) (nr el : ℚ) (cs : List ClientState)
    (h : ∀ c ∈ cs, c.clientCalcs = -1) :
    ∀ c ∈ (renderStep b nr el cs).1, c.clientCalcs = -1 := by
  simp only [renderStep]
  split
  · split
    · exact resetErrors_allDead _ (faultyScan_allDead _ h)
    · exact faultyScan_allDead _ h
  · exact h

/-- C2: when every client slot already carries the dead marker `-1` and this
pass's pipes yield no live report, a poll pass whose wall-clock deadline has
not yet expired ends in the `exit(ENOMEDIUM)` abort (source lines 710-718):
the run terminates at once with the distinct nonzero all-workers-dead
outcome, regardless of how much deadline time remains. -/
theorem c2_all_dead_abort (cfg : MonitorConfig) (s : MonitorState)
    (thisTime : ℤ) (tmsg : ℚ) (ins : List ClientInput)
    (hdead : ∀ c ∈ s.clients, c.clientCalcs = -1)
    (hins : ∀ i ∈ ins, ∀ m, i = ClientInput.report m → m.processed = -1)
    (htime : ¬ cfg.startTime + cfg.runTime < thisTime) :
    (monitorPass cfg s thisTime tmsg ins).result
      = PassResult.abortAllDead ENOMEDIUM ∧ ENOMEDIUM ≠ 0 := by
  refine ⟨?_, by decide⟩
  simp only [monitorPass]
  rw [if_neg htime]
  split
  · rfl
  · rename_i hfalse
    exact absurd
      (List.all_eq_true.mpr fun c hc => decide_eq_true
        (renderStep_allDead _ _ _ _
          (applyInputs_allDead s.clients ins tmsg hdead hins) c hc))
      hfalse

/-- Witness for `c2_all_dead_abort`: one client already dead, no input. -/
theorem c2_all_dead_abort_witness :
    (monitorPass ⟨0, 100⟩ ⟨[⟨0, 0, -1, 0, 0, false, true⟩], false, 10⟩ 5 5 []).result
      = PassResult.abortAllDead ENOMEDIUM ∧ ENOMEDIUM ≠ 0 :=
  c2_all_dead_abort ⟨0, 100⟩ ⟨[⟨0, 0, -1, 0, 0, false, true⟩], false, 10⟩ 5 5 []
    (by decide) (fun j hj => absurd hj (List.not_mem_nil j)) (by decide)

/-- Below the deadline, the pass renders exactly when the sticky
`childReport` flag or this pass's consumption is set. -/
theorem monitorPass_printed (cfg : MonitorConfig) (s : MonitorState)
    (thisTime : ℤ) (tmsg : ℚ) (ins : List ClientInput)
    (htime : ¬ cfg.startTime + cfg.runTime < thisTime) :
    (monitorPass cfg s thisTime tmsg ins).printed
      = (s.childReport || (applyInputs s.clients ins tmsg).2) := by
  simp only [monitorPass]
  rw [if_neg htime]
  split <;> rfl

/-- Below the deadline, `childReport` accumulates with `||` and is never
cleared by a pass. -/
theorem monitorPass_childReport (cfg : MonitorConfig) (s : MonitorState)
    (thisTime : ℤ) (tmsg : ℚ) (ins : List ClientInput)
    (htime : ¬ cfg.startTime + cfg.runTime < thisTime) :
    (monitorPass cfg s thisTime tmsg ins).state.childReport
      = (s.childReport || (applyInputs s.clients ins tmsg).2) := by
  simp only [monitorPass]
  rw [if_neg htime]
  split <;> rfl

/-- C4 (code bug): `childReport` (source line 576) is declared outside the
poll loop and never reset inside it, so rendering is not driven by data
arrival: pass 1 consumes one message and renders, and pass 2 consumes no
message yet renders again, contradicting the claim (and the comment on
source line 660, "Print progress only if we received new data"). -/
theorem c4_render_not_data_driven :
    (monitorPass ⟨0, 100⟩ ⟨[initClientState 0], false, 10⟩ 1 1
        [ClientInput.report ⟨3, 0⟩]).printed = true ∧
    (monitorPass ⟨0, 100⟩
        (monitorPass ⟨0, 100⟩ ⟨[initClientState 0], false, 10⟩ 1 1
          [ClientInput.report ⟨3, 0⟩]).state 2 2 [ClientInput.noData]).printed
      = true := by
  have h1 : ¬ ((⟨0, 100⟩ : MonitorConfig).startTime
      + (⟨0, 100⟩ : MonitorConfig).runTime < (1 : ℤ)) := by decide
  have h2 : ¬ ((⟨0, 100⟩ : MonitorConfig).startTime
      + (⟨0, 100⟩ : MonitorConfig).runTime < (2 : ℤ)) := by decide
  constructor
  · rw [monitorPass_printed _ _ _ _ _ h1]
    simp [applyInputs, applyClientInput]
  · rw [monitorPass_printed _ _ _ _ _ h2, monitorPass_childReport _ _ _ _ _ h1]
    simp [applyInputs, applyClientInput]

/-- No input kind changes `clientFaulty`. -/
theorem applyClientInput_faulty (c : ClientState) (inp : ClientInput) (t : ℚ) :
    (applyClientInput c inp t).1.clientFaulty = c.clientFaulty := by
  cases inp with
  | noData => rfl
  | report m => exact applyReport_clientFaulty c m t
  | brokenPipe => rfl

/-- The poll loop leaves every slot's `clientFaulty` unchanged. -/
theorem applyInputs_faulty (cs : List ClientState) (ins : List ClientInput)
    (t : ℚ) (i : ℕ) :
    ((applyInputs cs ins t).1[i]?).map (fun c => c.clientFaulty)
      = (cs[i]?).map (fun c => c.clientFaulty) := by
  induction cs generalizing ins i with
  | nil => cases ins <;> simp [applyInputs]
  | cons c0 cs' ih =>
      cases ins with
      | nil =>
          cases i with
          | zero => simp [applyInputs]
          | succ j => simpa [applyInputs] using ih [] j
      | cons i0 ins' =>
          cases i with
          | zero => simp [applyInputs, applyClientInput_faulty]
          | succ j => simpa [applyInputs] using ih ins' j

/-- The sticky-fault scan never clears a set faulty flag. -/
theorem faultyScan_faulty_mono (cs : List ClientState) (i : ℕ) (c : ClientState)
    (hc : cs[i]? = some c) (hf : c.clientFaulty = true) :
    ∃ c', (faultyScan cs)[i]? = some c' ∧ c'.clientFaulty = true := by
  refine ⟨if c.clientErrors ≠ 0 then { c with clientFaulty := true } else c,
    by simp [faultyScan, hc], ?_⟩
  split
  · rfl
  · exact hf

/-- A slot observed with a nonzero windowed error count is marked faulty by
the scan (source lines 692-694). -/
theorem faultyScan_sets (cs : List ClientState) (i : ℕ) (c : ClientState)
    (hc : cs[i]? = some c) (he : c.clientErrors ≠ 0) :
    (faultyScan cs)[i]? = some { c with clientFaulty := true } := by
  simp [faultyScan, hc, he]

/-- The windowed error reset leaves `clientFaulty` unchanged. -/
theorem resetErrors_faulty_mono (cs : List ClientState) (i : ℕ) (c : ClientState)
    (hc : cs[i]? = some c) (hf : c.clientFaulty = true) :
    ∃ c', (resetErrors cs)[i]? = some c' ∧ c'.clientFaulty = true :=
  ⟨{ c with clientErrors := 0 }, by simp [resetErrors, hc], by simpa using hf⟩

/-- The render block never clears a set faulty flag. -/
theorem renderStep_faulty_mono (b : Bool) (nr el : ℚ) (cs : List ClientState)
    (i : ℕ) (c : ClientState) (hc : cs[i]? = some c)
    (hf : c.clientFaulty = true) :
    ∃ c', (renderStep b nr el cs).1[i]? = some c' ∧ c'.clientFaulty = true := by
  simp only [renderStep]
  split
  · split
    · obtain ⟨c', hc', hf'⟩ := faultyScan_faulty_mono cs i c hc hf
      exact resetErrors_faulty_mono _ i c' hc' hf'
    · exact faultyScan_faulty_mono cs i c hc hf
  · exact ⟨c, hc, hf⟩

/-- A printing render block marks a slot with nonzero windowed errors
faulty. -/
theorem renderStep_sets_faulty (nr el : ℚ) (cs : List ClientState) (i : ℕ)
    (c : ClientState) (hc : cs[i]? = some c) (he : c.clientErrors ≠ 0) :
    ∃ c', (renderStep true nr el cs).1[i]? = some c' ∧ c'.clientFaulty = true := by
  have hset := faultyScan_sets cs i c hc he
  simp only [renderStep]
  split
  · split
    · exact ⟨{ c with clientFaulty := true, clientErrors := 0 },
        by simp [resetErrors, hset], rfl⟩
    · exact ⟨{ c with clientFaulty := true }, hset, rfl⟩
  · rename_i hfalse
    exact absurd trivial hfalse

/-- One monitor pass (any phase) never clears a set faulty flag. -/
theorem monitorPass_faulty_mono (cfg : MonitorConfig) (s : MonitorState)
    (thisTime : ℤ) (tmsg : ℚ) (ins : List ClientInput) (i : ℕ)
    (c : ClientState) (hc : s.clients[i]? = some c)
    (hf : c.clientFaulty = true) :
    ∃ c', (monitorPass cfg s thisTime tmsg ins).state.clients[i]? = some c' ∧
      c'.clientFaulty = true := by
  simp only [monitorPass]
  split
  · exact ⟨c, hc, hf⟩
  · have happ := applyInputs_faulty s.clients ins tmsg i
    rw [hc] at happ
    cases h0 : (applyInputs s.clients ins tmsg).1[i]? with
    | none => rw [h0] at happ; simp at happ
    | some c0 =>
        rw [h0] at happ
        simp only [Option.map_some'] at happ
        have hf0 : c0.clientFaulty = true := by
          simpa [hf] using happ
        obtain ⟨c', hc', hf'⟩ := renderStep_faulty_mono
          (s.childReport || (applyInputs s.clients ins tmsg).2) s.nextReport
          (min (((thisTime - cfg.startTime : ℤ) : ℚ) / (cfg.runTime : ℚ) * 100) 100)
          (applyInputs s.clients ins tmsg).1 i c0 h0 hf0
        split <;> exact ⟨c', hc', hf'⟩

/-- Any sequence of monitor passes never clears a set faulty flag. -/
theorem runPasses_faulty_mono (cfg : MonitorConfig) (ps : List PassParams)
    (s : MonitorState) (i : ℕ) (c : ClientState) (hc : s.clients[i]? = some c)
    (hf : c.clientFaulty = true) :
    ∃ c', (runPasses cfg s ps).clients[i]? = some c' ∧ c'.clientFaulty = true := by
  induction ps generalizing s c with
  | nil => exact ⟨c, hc, hf⟩
  | cons p ps' ih =>
      obtain ⟨c1, hc1, hf1⟩ :=
        monitorPass_faulty_mono cfg s p.thisTime p.tmsg p.ins i c hc hf
      exact ih _ _ hc1 hf1

/-- C6: once a printing pass observes a nonzero windowed error count for
device `i` (the sticky scan, source lines 692-694), the device's faulty flag
is true after that pass and stays true across every further pass — later
zero-error windows and the 10%-boundary error resets never clear it — and
the terminal summary (source lines 753-755) reports the device `FAULTY`,
independent of whether it is alive at the end. -/
theorem c6_faulty_sticky (cfg : MonitorConfig) (s : MonitorState)
    (thisTime : ℤ) (tmsg : ℚ) (ins : List ClientInput) (ps : List PassParams)
    (i : ℕ) (c : ClientState)
    (happ : (applyInputs s.clients ins tmsg).1[i]? = some c)
    (herr : c.clientErrors ≠ 0)
    (hrep : s.childReport = true ∨ (applyInputs s.clients ins tmsg).2 = true)
    (htime : ¬ cfg.startTime + cfg.runTime < thisTime) :
    ∃ c', (runPasses cfg (monitorPass cfg s thisTime tmsg ins).state ps).clients[i]?
        = some c' ∧ c'.clientFaulty = true ∧
      (finalSummary (runPasses cfg (monitorPass cfg s thisTime tmsg ins).state ps))[i]?
        = some "FAULTY" := by
  have hsp : (s.childReport || (applyInputs s.clients ins tmsg).2) = true := by
    rcases hrep with h | h <;> simp [h]
  have hpass : ∃ c1,
      (monitorPass cfg s thisTime tmsg ins).state.clients[i]? = some c1 ∧
      c1.clientFaulty = true := by
    obtain ⟨c1, hc1, hf1⟩ := renderStep_sets_faulty s.nextReport
      (min (((thisTime - cfg.startTime : ℤ) : ℚ) / (cfg.runTime : ℚ) * 100) 100)
      (applyInputs s.clients ins tmsg).1 i c happ herr
    refine ⟨c1, ?_, hf1⟩
    simp only [monitorPass]
    rw [if_neg htime, hsp]
    split <;> exact hc1
  obtain ⟨c1, hc1, hf1⟩ := hpass
  obtain ⟨c', hc', hf'⟩ := runPasses_faulty_mono cfg ps _ i c1 hc1 hf1
  exact ⟨c', hc', hf', by simp [finalSummary, hc', hf']⟩

/-- Witness for `c6_faulty_sticky`: one client with 5 windowed errors in a
printing pass, followed by one further quiet pass. -/
theorem c6_faulty_sticky_witness :
    ∃ c', (runPasses ⟨0, 100⟩
        (monitorPass ⟨0, 100⟩ ⟨[⟨0, 5, 0, 0, 0, false, true⟩], true, 10⟩ 5 5 []).state
        [⟨6, 6, []⟩]).clients[0]? = some c' ∧ c'.clientFaulty = true ∧
      (finalSummary (runPasses ⟨0, 100⟩
        (monitorPass ⟨0, 100⟩ ⟨[⟨0, 5, 0, 0, 0, false, true⟩], true, 10⟩ 5 5 []).state
        [⟨6, 6, []⟩]))[0]? = some "FAULTY" :=
  c6_faulty_sticky ⟨0, 100⟩ ⟨[⟨0, 5, 0, 0, 0, false, true⟩], true, 10⟩ 5 5 []
    [⟨6, 6, []⟩] 0 ⟨0, 5, 0, 0, 0, false, true⟩ rfl (by decide) (Or.inl rfl)
    (by decide)

/-- The program points that touch the shared `g_running` flag: the
coordinator's post-deadline cancel (source line 726), the SIGTERM handler
(line 173), the `GPU_Test` constructor (line 159, which assigns
`g_running = true`), and a worker's `shouldRun` read (line 301), which
leaves it unchanged. -/
inductive FlagStep
  | coordinatorCancel
  | termSignal
  | workerConstruct
  | workerObserve
  deriving DecidableEq, Repr

/-- Effect of each step on `g_running`; the cancelled state is `false`. -/
def stepFlag : Bool → FlagStep → Bool
  | _, FlagStep.coordinatorCancel => false
  | _, FlagStep.termSignal => false
  | _, FlagStep.workerConstruct => true
  | r, FlagStep.workerObserve => r

/-- The flag after a sequence of steps from state `r`. -/
def runFlag (r : Bool) (steps : List FlagStep) : Bool :=
  steps.foldl stepFlag r

/-- C3, counterexample: the `GPU_Test` constructor assigns
`g_running = true` (source line 159), so after the coordinator flips the
flag to the cancelled state, a worker whose construction completes late
returns the shared signal to the not-cancelled state: the signal is not
monotonic over the program's own steps. -/
theorem c3_counterexample :
    runFlag true [FlagStep.coordinatorCancel] = false ∧
    runFlag true [FlagStep.coordinatorCancel, FlagStep.workerConstruct] = true := by
  constructor <;> rfl

/-- C3 (amended): the cancellation signal is monotonic with respect to every
step except `GPU_Test` construction: once `g_running` is `false`, any
sequence of coordinator cancels, SIGTERM-handler runs, and worker reads
leaves it `false` — so a worker that merely checks the flag late still
observes cancellation — but a `GPU_Test` constructor still running can undo
it. -/
theorem c3_cancel_monotonic (steps : List FlagStep)
    (h : FlagStep.workerConstruct ∉ steps) :
    runFlag false steps = false := by
  induction steps with
  | nil => rfl
  | cons st rest ih =>
      have hst : st ≠ FlagStep.workerConstruct :=
        fun he => h (he ▸ List.mem_cons_self _ _)
      have hrest : FlagStep.workerConstruct ∉ rest :=
        fun hr => h (List.mem_cons_of_mem _ hr)
      cases st with
      | coordinatorCancel => exact ih hrest
      | termSignal => exact ih hrest
      | workerConstruct => exact absurd rfl hst
      | workerObserve => exact ih hrest

/-- Witness for `c3_cancel_monotonic` on a concrete construction-free step
sequence. -/
theorem c3_cancel_monotonic_witness :
    runFlag false [FlagStep.workerObserve, FlagStep.termSignal,
      FlagStep.coordinatorCancel, FlagStep.workerObserve] = false :=
  c3_cancel_monotonic _ (by decide)

/-- Worker-side accumulator state of `GPU_Test`: `d_error` (the running
error total, source line 311) and the host-mapped `*d_faultyElemsHost`
written back by the most recent `compare()` (source lines 296-298). -/
structure GpuTestState where
  d_error : ℤ
  d_faultyElemsHost : ℤ
  deriving DecidableEq, Repr

/-- `GPU_Test::getErrors` (source lines 175-182): fold a pending nonzero
faulty-element count into `d_error`, return the total, and clear `d_error`
— `*d_faultyElemsHost` itself is left untouched (only `compare()` rewrites
it). -/
def getErrors (s : GpuTestState) : ℤ × GpuTestState :=
  let e :=
    if s.d_faultyElemsHost ≠ 0 then s.d_error + s.d_faultyElemsHost
    else s.d_error
  (e, { s with d_error := 0 })

/-- C10, counterexample: with `d_error = 3` and a pending host count of `5`,
the first `getErrors` returns `8`, and a second call with no intervening
`compare` returns `5`, not `0`: the pending faulty-element count is folded
in again because `getErrors` never clears `*d_faultyElemsHost`. -/
theorem c10_counterexample :
    (getErrors ⟨3, 5⟩).1 = 8 ∧
    (getErrors (getErrors ⟨3, 5⟩).2).1 = 5 ∧
    (getErrors (getErrors ⟨3, 5⟩).2).1 ≠ 0 := by
  refine ⟨?_, ?_, ?_⟩ <;> decide

/-- C10 (amended): `getErrors` returns `d_error` plus any pending
faulty-element count and clears only the `d_error` accumulator; the pending
host-side count survives the call, so a second call with no intervening
`compare` returns exactly that pending count — `0` precisely when no faulty
elements were pending. -/
theorem c10_getErrors (s : GpuTestState) :
    (getErrors s).1 = s.d_error + s.d_faultyElemsHost ∧
    (getErrors s).2.d_error = 0 ∧
    (getErrors s).2.d_faultyElemsHost = s.d_faultyElemsHost ∧
    (getErrors (getErrors s).2).1 = s.d_faultyElemsHost := by
  by_cases h : s.d_faultyElemsHost = 0 <;> simp [getErrors, h]

/-- Observable actions of the post-deadline shutdown sequence. -/
inductive ShutdownEvent
  | setCancel
  | sleepFor (secs : ℚ)
  | forceTerminate (threadIdx : ℕ)
  | killTempProcess
  | runDone
  deriving DecidableEq, Repr

/-- The `TerminateThread` calls (source lines 732-738): exactly the threads
whose exit code still reads `STILL_ACTIVE` after the grace sleep. -/
def reapStragglers (active : List Bool) : List ShutdownEvent :=
  (List.range active.length).filterMap fun i =>
    if active[i]? = some true then some (ShutdownEvent.forceTerminate i)
    else none

/-- The shutdown sequence run when the poll loop breaks on the deadline
(source lines 724-751): set `g_running = false`, sleep the whole grace
period `sigterm_timeout_threshold_secs` once, force-terminate every
still-active worker thread, kill the temperature process when one was
started, and finish. `active` is the per-thread `STILL_ACTIVE` status
observed after the sleep. -/
def shutdownTrace (grace : ℚ) (active : List Bool) (tempValid : Bool) :
    List ShutdownEvent :=
  [ShutdownEvent.setCancel, ShutdownEvent.sleepFor grace] ++
    reapStragglers active ++
    (if tempValid then [ShutdownEvent.killTempProcess] else []) ++
    [ShutdownEvent.runDone]

/-- Time slept by a trace: the sum of its `sleepFor` durations. -/
def sleepTotal (tr : List ShutdownEvent) : ℚ :=
  (tr.map fun e =>
    match e with
    | ShutdownEvent.sleepFor secs => secs
    | _ => 0).sum

/-- Every reap event is a `forceTerminate`, so it contributes no sleep. -/
theorem reapStragglers_sleep (active : List Bool) :
    ∀ e ∈ reapStragglers active,
      (match e with | ShutdownEvent.sleepFor secs => secs | _ => (0 : ℚ)) = 0 := by
  intro e he
  simp only [reapStragglers, List.mem_filterMap] at he
  obtain ⟨i, _, hi⟩ := he
  by_cases h : active[i]? = some true
  · rw [if_pos h] at hi
    cases hi
    rfl
  · rw [if_neg h] at hi
    cases hi

/-- C7: the shutdown sequence starts by setting the cancellation signal,
blocks for exactly the configured grace period and never a second one (its
total sleep equals `grace`, so the final state is reached within
`grace + ε` of the deadline and the run cannot hang indefinitely),
unconditionally force-terminates every worker thread still active after the
sleep, forcibly stops the temperature process when one exists, and ends with
the run done. -/
theorem c7_shutdown (grace : ℚ) (active : List Bool) (tempValid : Bool) :
    (shutdownTrace grace active tempValid).head? = some ShutdownEvent.setCancel ∧
    sleepTotal (shutdownTrace grace active tempValid) = grace ∧
    (∀ i, active[i]? = some true →
      ShutdownEvent.forceTerminate i ∈ shutdownTrace grace active tempValid) ∧
    (tempValid = true →
      ShutdownEvent.killTempProcess ∈ shutdownTrace grace active tempValid) ∧
    (shutdownTrace grace active tempValid).getLast? = some ShutdownEvent.runDone := by
  refine ⟨rfl, ?_, ?_, ?_, ?_⟩
  · have hreap : ((reapStragglers active).map fun e =>
        match e with | ShutdownEvent.sleepFor secs => secs | _ => (0 : ℚ)).sum = 0 :=
      List.sum_eq_zero fun x hx => by
        obtain ⟨e, he, rfl⟩ := List.mem_map.mp hx
        exact reapStragglers_sleep active e he
    simp only [shutdownTrace, sleepTotal, List.map_append, List.sum_append]
    rw [hreap]
    split <;> simp
  · intro i hi
    have hlen : i < active.length := by
      by_contra hge
      rw [List.getElem?_eq_none (Nat.le_of_not_lt hge)] at hi
      cases hi
    simp only [shutdownTrace, List.mem_append]
    refine Or.inl (Or.inl (Or.inr ?_))
    simp only [reapStragglers, List.mem_filterMap]
    exact ⟨i, List.mem_range.mpr hlen, by rw [if_pos hi]⟩
  · intro ht
    simp only [shutdownTrace, List.mem_append]
    refine Or.inl (Or.inr ?_)
    rw [if_pos ht]
    exact List.mem_singleton_self _
  · have : shutdownTrace grace active tempValid
        = ([ShutdownEvent.setCancel, ShutdownEvent.sleepFor grace] ++
            reapStragglers active ++
            (if tempValid then [ShutdownEvent.killTempProcess] else [])) ++
          [ShutdownEvent.runDone] := by
      simp [shutdownTrace]
    rw [this, List.getLast?_concat]

/-- Witness for `c7_shutdown`: two threads with the second still active, a
running temperature process, the default 30 s grace period. -/
theorem c7_shutdown_witness :
    ShutdownEvent.forceTerminate 1 ∈ shutdownTrace 30 [false, true] true ∧
    ShutdownEvent.killTempProcess ∈ shutdownTrace 30 [false, true] true ∧
    sleepTotal (shutdownTrace 30 [false, true] true) = 30 :=
  ⟨(c7_shutdown 30 [false, true] true).2.2.1 1 (by decide),
    (c7_shutdown 30 [false, true] true).2.2.2.1 rfl,
    (c7_shutdown 30 [false, true] true).2.1⟩

/-- `d_resultSize = sizeof(T) * MATRIX_SIZE * MATRIX_SIZE` — the byte size
of one matrix buffer (source line 216). -/
def resultSize (sizeofT : ℕ) : ℕ := sizeofT * MATRIX_SIZE * MATRIX_SIZE

/-- Resolution of the `useBytes` argument at the top of `initBuffers`
(source lines 205-208): `0` means `USEMEM = 0.9` of currently-available
memory, a negative value means that percentage of available memory, and a
positive value is taken as the byte count itself. The `double` products are
modelled by exact rational arithmetic; the `(ssize_t)` casts truncate, which
on these nonnegative values is the floor. -/
def resolveUseBytes (useBytes : ℤ) (availMem : ℕ) : ℤ :=
  if useBytes = 0 then ⌊(availMem : ℚ) * (9 / 10)⌋
  else if useBytes < 0 then ⌊(availMem : ℚ) * ((-useBytes : ℤ) : ℚ) / 100⌋
  else useBytes

/-- The allocation-size computation and guard of `initBuffers` (source
lines 216-222): `d_iters = (useBytes - 2 * d_resultSize) / d_resultSize` in
`size_t` (unsigned 64-bit, wrapping) arithmetic — `useBytes` is converted
to unsigned by the usual arithmetic conversions — followed by the
`"Low mem for result"` throw when `(size_t)useBytes < 3 * d_resultSize`.
Allocation of the buffers happens only after the guard passes. -/
def initBuffers (sizeofT : ℕ) (useBytes : ℤ) (availMem : ℕ) :
    Except String ℕ :=
  let ub := (resolveUseBytes useBytes availMem).toNat
  let rs := resultSize sizeofT
  let d_iters := ((ub % 2 ^ 64 + 2 ^ 64 - (2 * rs) % 2 ^ 64) % 2 ^ 64) / rs
  if ub % 2 ^ 64 < (3 * rs) % 2 ^ 64 then
    Except.error "Low mem for result. aborting.\n"
  else Except.ok d_iters

/-- C8: for footprints and buffer sizes within the machine's 64-bit range,
`initBuffers` fails with the low-memory error exactly when the resolved
byte budget is below three matrix buffers (two inputs plus at least one
output), and on success it computes at least one output-buffer iteration. -/
theorem c8_initBuffers (sizeofT : ℕ) (useBytes : ℤ) (availMem : ℕ)
    (hT : 0 < sizeofT)
    (hub : (resolveUseBytes useBytes availMem).toNat < 2 ^ 64)
    (hrs : 3 * resultSize sizeofT < 2 ^ 64) :
    ((∃ e, initBuffers sizeofT useBytes availMem = Except.error e) ↔
      (resolveUseBytes useBytes availMem).toNat < 3 * resultSize sizeofT) ∧
    ∀ n, initBuffers sizeofT useBytes availMem = Except.ok n → 1 ≤ n := by
  have hrs0 : 0 < resultSize sizeofT := by
    simp only [resultSize, MATRIX_SIZE]
    positivity
  simp only [initBuffers]
  generalize (resolveUseBytes useBytes availMem).toNat = u at hub ⊢
  by_cases hlt : u < 3 * resultSize sizeofT
  · have hcond : u % 2 ^ 64 < (3 * resultSize sizeofT) % 2 ^ 64 := by omega
    rw [if_pos hcond]
    exact ⟨⟨fun _ => hlt, fun _ => ⟨"Low mem for result. aborting.\n", rfl⟩⟩,
      fun n hn => by cases hn⟩
  · have hcond : ¬ u % 2 ^ 64 < (3 * resultSize sizeofT) % 2 ^ 64 := by omega
    rw [if_neg hcond]
    refine ⟨⟨fun he => ?_, fun hc => absurd hc hlt⟩, fun n hn => ?_⟩
    · obtain ⟨e, he⟩ := he
      cases he
    · have hn' : (u % 2 ^ 64 + 2 ^ 64 - (2 * resultSize sizeofT) % 2 ^ 64) % 2 ^ 64
          / resultSize sizeofT = n := by
        injection hn
      have hval : (u % 2 ^ 64 + 2 ^ 64 - (2 * resultSize sizeofT) % 2 ^ 64) % 2 ^ 64
          = u - 2 * resultSize sizeofT := by omega
      rw [hval] at hn'
      rw [← hn']
      exact (Nat.one_le_div_iff hrs0).mpr (by omega)

/-- Witness for `c8_initBuffers`: single-precision matrices
(`sizeof(float) = 4`, one buffer is 256 MiB) with a budget of exactly three
buffers, which succeeds with one iteration's worth of output space. -/
theorem c8_initBuffers_witness :
    ((∃ e, initBuffers 4 805306368 0 = Except.error e) ↔
      (resolveUseBytes 805306368 0).toNat < 3 * resultSize 4) ∧
    ∀ n, initBuffers 4 805306368 0 = Except.ok n → 1 ≤ n :=
  c8_initBuffers 4 805306368 0 (by decide) (by decide) (by decide)

/-- Decimal digit-run parser backing the `strtoll` model: consumes leading
digits into an accumulator and reports whether any digit was consumed. -/
def parseDigits : List Char → ℕ → Bool → ℕ × List Char × Bool
  | c :: cs, acc, consumed =>
      if c.isDigit then parseDigits cs (acc * 10 + (c.toNat - 48)) true
      else (acc, c :: cs, consumed)
  | [], acc, consumed => (acc, [], consumed)

/-- `strtoll(s, &s2, 10)` as used by `decodeUSEMEM` (source line 922): skip
leading whitespace, read an optional sign, then a digit run. Returns the
signed value, the tail after the digits, and whether any digit was consumed
(when none is, `strtoll` leaves `s2 == s`, which is all `decodeUSEMEM`
inspects). `INT64` overflow clamping is not modelled. -/
def strtoll10 (s : List Char) : ℤ × List Char × Bool :=
  let s1 := s.dropWhile fun c =>
    (c == ' ') || (c == '\t') || (c == '\n') || (c == '\r') ||
      (c == '\x0b') || (c == '\x0c')
  match s1 with
  | '-' :: rest =>
      let p := parseDigits rest 0 false
      (-(p.1 : ℤ), p.2.1, p.2.2)
  | '+' :: rest =>
      let p := parseDigits rest 0 false
      ((p.1 : ℤ), p.2.1, p.2.2)
  | other =>
      let p := parseDigits other 0 false
      ((p.1 : ℤ), p.2.1, p.2.2)

/-- `decodeUSEMEM` (source lines 920-928): `0` signals a syntax error; an
argument `"N%"` yields `-N` (a percentage request); a plain number `N`
yields `N * 1024 * 1024` — the argument counts megabytes. -/
def decodeUSEMEM (s : List Char) : ℤ :=
  let p := strtoll10 s
  if p.2.2 = false then 0
  else
    match p.2.1 with
    | '%' :: rest => if rest = [] then -p.1 else 0
    | [] => p.1 * 1024 * 1024
    | _ => 0

example : decodeUSEMEM ("90%".toList) = -90 := by decide

example : decodeUSEMEM ("".toList) = 0 := by decide

example : decodeUSEMEM ("12x".toList) = 0 := by decide

/-- C9, counterexample: a plain numeric `-m` argument is interpreted as a
megabyte count, not an absolute byte count: `decodeUSEMEM "100"` yields
`104857600 = 100 * 1024 * 1024` bytes, not `100`. -/
theorem c9_counterexample :
    decodeUSEMEM ("100".toList) = 104857600 ∧ (104857600 : ℤ) ≠ 100 := by
  constructor <;> decide

/-- C9 (amended): with no `-m` option (`useBytes = 0`) the worker uses
`USEMEM = 90%` of the currently-free device memory; an `"N%"` argument
decodes to `-N` and resolves to `N%` of the currently-free memory; and a
plain numeric argument `N` decodes to `N * 1024 * 1024` bytes — it selects
`N` megabytes, not an absolute byte count of `N`. -/
theorem c9_memory_selection (availMem : ℕ) (s : List Char) (n : ℕ) :
    resolveUseBytes 0 availMem = ⌊(availMem : ℚ) * (9 / 10)⌋ ∧
    (strtoll10 s = ((n : ℤ), ['%'], true) → 0 < n →
      decodeUSEMEM s = -(n : ℤ) ∧
      resolveUseBytes (decodeUSEMEM s) availMem
        = ⌊(availMem : ℚ) * (n : ℚ) / 100⌋) ∧
    (strtoll10 s = ((n : ℤ), [], true) →
      decodeUSEMEM s = (n : ℤ) * 1024 * 1024) := by
  refine ⟨by simp [resolveUseBytes], fun h hn => ⟨?_, ?_⟩, fun h => ?_⟩
  · simp [decodeUSEMEM, h]
  · have hd : decodeUSEMEM s = -(n : ℤ) := by simp [decodeUSEMEM, h]
    rw [hd]
    have h0 : ¬ (-(n : ℤ) = 0) := by omega
    have h1 : -(n : ℤ) < 0 := by omega
    rw [resolveUseBytes, if_neg h0, if_pos h1]
    norm_num
  · simp [decodeUSEMEM, h]

/-- Witness for `c9_memory_selection`: 1000 bytes free, the arguments
`"50%"` and `"100"`. -/
theorem c9_memory_selection_witness :
    resolveUseBytes 0 1000 = ⌊(1000 : ℚ) * (9 / 10)⌋ ∧
    (decodeUSEMEM ("50%".toList) = -50 ∧
      resolveUseBytes (decodeUSEMEM ("50%".toList)) 1000
        = ⌊(1000 : ℚ) * ((50 : ℕ) : ℚ) / 100⌋) ∧
    decodeUSEMEM ("100".toList) = (100 : ℤ) * 1024 * 1024 :=
  ⟨(c9_memory_selection 1000 ("50%".toList) 50).1,
    (c9_memory_selection 1000 ("50%".toList) 50).2.1 (by decide) (by decide),
    (c9_memory_selection 1000 ("100".toList) 100).2.2 (by decide)⟩

end GpuBurn
